import Mathlib

/-!
Verification of the SQLCritic validation / safe-execution gateway.

Shallow embedding of the SQL validation and safe-execution gateway of
`MCP_SERVER/SQLCritic_MCP.py`: the lexical safety scanner
(`_remove_comments_and_strings`, the `FORBIDDEN_TOKENS` scan), the read-only
gate (`_is_readonly_select`, `_is_single_statement`), the schema-aware name
resolver (`_check_schema_columns` over the alias maps produced by
`_collect_real_table_aliases` / `_collect_derived_aliases`), the static
status aggregation of `static_check_sql`, the preview sampler
(`_preview_rows`), the dynamic execution outcome logic of
`dynamic_check_sql`, and the streaming CSV exporter (`save_to_csv`).

Text is modelled as `List Char`.  Python regular-expression substitutions
are embedded as fuel-indexed scanners that follow the leftmost-match
semantics of `re.sub` for the concrete patterns used by the source.
Database effects (the fetched preview pool, the result of the COUNT probe,
the batches produced by the streaming cursor) are explicit inputs, and the
random index draw of `random.sample` is an explicit list of indices
constrained by hypotheses where a claim needs its contract.
-/

namespace SQLCritic

/-! ## Character classes used by the Python regexes -/

/-- The class `\s` of the Python regexes (ASCII whitespace as used by the source). -/
def isWs (c : Char) : Bool := c.isWhitespace

/-- A word character for the `\b` boundaries of the forbidden-token regexes
(`[A-Za-z0-9_]`). -/
def isWordChar (c : Char) : Bool := c.isAlpha || c.isDigit || c == '_'

/-! ## `_remove_comments_and_strings`

The source applies five `re.sub` passes in order: `--[^\n]*` → `" "`,
`#[^\n]*` → `" "`, `/\*.*?\*/` → `" "` (DOTALL), `'([^'\\]|\\.)*'` → `''`,
`"([^"\\]|\\.)*"` → `""`.  Each pass is embedded as a left-to-right scanner
replacing every leftmost match.  The fuel argument is only for termination;
it is instantiated with the length of the text, which every step strictly
decreases. -/

/-- One pass of `re.sub(r"--[^\n]*", " ", s)`: at each `--` replace up to
(excluding) the next newline with a single space. -/
def stripDash : Nat → List Char → List Char
  | 0, s => s
  | _ + 1, [] => []
  | f + 1, '-' :: '-' :: t => ' ' :: stripDash f (t.dropWhile (fun c => c ≠ '\n'))
  | f + 1, c :: t => c :: stripDash f t

/-- One pass of `re.sub(r"#[^\n]*", " ", s)`. -/
def stripHash : Nat → List Char → List Char
  | 0, s => s
  | _ + 1, [] => []
  | f + 1, '#' :: t => ' ' :: stripHash f (t.dropWhile (fun c => c ≠ '\n'))
  | f + 1, c :: t => c :: stripHash f t

/-- Scan for the nearest `*/` and return the text after it (the non-greedy
`.*?\*/` of the block-comment regex); `none` when no `*/` follows. -/
def findBlockClose : List Char → Option (List Char)
  | '*' :: '/' :: t => some t
  | _ :: t => findBlockClose t
  | [] => none

/-- One pass of `re.sub(r"/\*.*?\*/", " ", s, flags=re.S)`.  When a `/*` has
no closing `*/` anywhere after it, nothing later can match either (a match
needs a `*/`), so the rest of the text is returned unchanged. -/
def stripBlock : Nat → List Char → List Char
  | 0, s => s
  | _ + 1, [] => []
  | f + 1, '/' :: '*' :: t =>
    match findBlockClose t with
    | some rest => ' ' :: stripBlock f rest
    | none => '/' :: '*' :: t
  | f + 1, c :: t => c :: stripBlock f t

/-- Scan the body of a quoted literal for the pattern
`([^q\\]|\\.)*q` (with `q` the quote character): consume escaped pairs and
ordinary characters until the closing quote; `none` when the pattern cannot
match from this opening quote (end of input, or a backslash followed by a
newline or nothing — `.` does not match `\n` without DOTALL). -/
def scanQuoted (q : Char) : List Char → Option (List Char)
  | '\\' :: c :: t => if c = '\n' then none else scanQuoted q t
  | '\\' :: [] => none
  | c :: t => if c = q then some t else scanQuoted q t
  | [] => none

/-- One pass of `re.sub(r"'([^'\\]|\\.)*'", "''", s)` (and its double-quote
variant): every matched literal is replaced by an empty pair of quotes; an
opening quote with no matching close is kept and scanning resumes at the
next character, as the regex engine does. -/
def stripQuoted (q : Char) : Nat → List Char → List Char
  | 0, s => s
  | _ + 1, [] => []
  | f + 1, c :: t =>
    if c = q then
      match scanQuoted q t with
      | some rest => q :: q :: stripQuoted q f rest
      | none => c :: stripQuoted q f t
    else c :: stripQuoted q f t

/-- Embeds `_remove_comments_and_strings`: the five substitution passes in source
order (line comments `--`, line comments `#`, block comments, single-quoted
literals, double-quoted literals). -/
def remove_comments_and_strings (s : List Char) : List Char :=
  let s1 := stripDash s.length s
  let s2 := stripHash s1.length s1
  let s3 := stripBlock s2.length s2
  let s4 := stripQuoted '\'' s3.length s3
  stripQuoted '"' s4.length s4

/-! ## The `FORBIDDEN_TOKENS` scan -/

/-- Case-insensitive prefix match of a lowercase pattern word against the
text; returns the remaining text after the word. -/
def lowerPref : List Char → List Char → Option (List Char)
  | [], s => some s
  | _ :: _, [] => none
  | k :: ks, c :: cs => if c.toLower = k then lowerPref ks cs else none

/-- Matches `\bWORD` at the head of `s` followed by a `\b` boundary: the pattern
word matches case-insensitively and the next character (if any) is not a
word character. -/
def wordHere (w : List Char) (s : List Char) : Bool :=
  match lowerPref w s with
  | some [] => true
  | some (c :: _) => !(isWordChar c)
  | none => false

/-- The single-word members of `FORBIDDEN_TOKENS` (each regex is
`\bWORD\b`, compiled case-insensitively). -/
def forbiddenWords : List (List Char) :=
  ["insert", "update", "delete", "replace", "merge", "alter", "drop",
   "truncate", "create", "grant", "revoke", "set", "call", "exec",
   "lock", "unlock"].map String.toList

/-- Matches `\bW1\s+W2\b` at the head of `s` (the `INTO OUTFILE` / `LOAD DATA`
patterns). -/
def pairHere (w1 w2 : List Char) (s : List Char) : Bool :=
  match lowerPref w1 s with
  | some (c :: t) => isWs c && wordHere w2 (t.dropWhile isWs)
  | _ => false

/-- Matches `\bLOAD_FILE\s*\(` at the head of `s`. -/
def loadFileHere (s : List Char) : Bool :=
  match lowerPref "load_file".toList s with
  | some rest =>
    match rest.dropWhile isWs with
    | '(' :: _ => true
    | _ => false
  | none => false

/-- Some `FORBIDDEN_TOKENS` pattern matches at the head of `s` (the
leading `\b` boundary is checked by the caller). -/
def forbiddenHere (s : List Char) : Bool :=
  forbiddenWords.any (fun w => wordHere w s) ||
  pairHere "into".toList "outfile".toList s ||
  pairHere "load".toList "data".toList s ||
  loadFileHere s

/-- Word boundary before the current position: start of text or a
non-word previous character. -/
def boundaryOk : Option Char → Bool
  | none => true
  | some c => !(isWordChar c)

/-- Scan the whole text for any `FORBIDDEN_TOKENS` match (`re.search` with
`re.I` over each pattern, all of which begin with `\b` and a word
character). -/
def scanForbidden (prev : Option Char) : List Char → Bool
  | [] => false
  | c :: t => (boundaryOk prev && forbiddenHere (c :: t)) || scanForbidden (some c) t

/-- The forbidden-token test applied by `static_check_sql`,
`_is_readonly_select` and the execution tools: scrub the statement with
`_remove_comments_and_strings`, then search for any denylisted pattern. -/
def has_forbidden_token (sql : List Char) : Bool :=
  scanForbidden none (remove_comments_and_strings sql)

/-! ## `_is_readonly_select` and `_is_single_statement` -/

/-- An opening parenthesis (the `[\(]` class of the head regex). -/
def isOpenParen (c : Char) : Bool := c == '('

/-- Matches `(select|with)\b`, case-insensitively, at the head of `s`.  The
alternation is embedded with explicit lower/upper characters so that a
successful match pins the head character down to one of
`s`, `S`, `w`, `W`. -/
def selectOrWithHere (s : List Char) : Bool :=
  wordHere "select".toList s || wordHere "with".toList s

/-- The head test of `_is_readonly_select`:
`re.match(r"^\s*[\(]*\s*(select|with)\b", sql, flags=re.I)` — optional
whitespace, then a run of opening parentheses, then optional whitespace,
then `SELECT` or `WITH` as a whole word. -/
def readonlyHead (s : List Char) : Bool :=
  selectOrWithHere (((s.dropWhile isWs).dropWhile isOpenParen).dropWhile isWs)

/-- Embeds `_is_readonly_select`: the head must match `SELECT`/`WITH` (after
optional whitespace and opening parentheses) and the scrubbed text must
contain no forbidden token. -/
def is_readonly_select (sql : List Char) : Bool :=
  readonlyHead sql && !(has_forbidden_token sql)

/-- Python `str.strip`: drop whitespace from both ends. -/
def pyStrip (s : List Char) : List Char :=
  ((s.dropWhile isWs).reverse.dropWhile isWs).reverse

/-- Embeds `_is_single_statement`: scrub comments and strings, strip whitespace,
drop one optional trailing `;` (stripping again), and require that no
semicolon remains. -/
def is_single_statement (sql : List Char) : Bool :=
  let trimmed := pyStrip (remove_comments_and_strings sql)
  let trimmed :=
    match trimmed.getLast? with
    | some ';' => pyStrip trimmed.dropLast
    | _ => trimmed
  !(trimmed.contains ';')

/-! ## The pre-connection gates of `dynamic_check_sql` and `save_to_csv`

Both tools run `_is_single_statement` and `_is_readonly_select` and return
a structured runtime error before any database connection is opened when
either gate fails.  The gate is embedded as the error message it produces,
`none` meaning that the request proceeds to the store. -/

/-- The safety gate of `dynamic_check_sql` (its first two early returns). -/
def dynamic_check_gate (sql : List Char) : Option String :=
  if !(is_single_statement sql) then
    some "仅允许单条 SQL 语句（检测到多语句）"
  else if !(is_readonly_select sql) then
    some "仅允许只读查询（SELECT/WITH/UNION），或检测到危险关键字"
  else none

/-- The safety gate of `save_to_csv` (its first two early returns). -/
def save_to_csv_gate (sql : List Char) : Option String :=
  if !(is_single_statement sql) then
    some "仅允许单条 SQL 语句（检测到多语句）"
  else if !(is_readonly_select sql) then
    some "仅允许只读查询（SELECT/WITH/UNION），或检测到危险关键字"
  else none

/-! ## Reference definitions taken from the spec's words -/

/-- Skip a quoted literal body in the reference lexer: backslash escapes
and doubled quotes continue the literal; an unterminated literal swallows
the rest of the text.  Returns the text after the closing quote. -/
def specSkipQuoted (q : Char) : List Char → List Char
  | '\\' :: _ :: t => specSkipQuoted q t
  | c :: t =>
    if c = q then
      match t with
      | c2 :: t2 => if c2 = q then specSkipQuoted q t2 else t
      | [] => []
    else specSkipQuoted q t
  | [] => []

/-- Skip a block comment body in the reference lexer: everything up to and
including the first `*/` (an unterminated comment swallows the rest). -/
def specSkipBlock : List Char → List Char
  | '*' :: '/' :: t => t
  | _ :: t => specSkipBlock t
  | [] => []

/-- Modelled from the spec: a single-pass lexer for the spec's notion of
"comments and quoted string literals" (§4.1, §8) — line comments (`--`,
`#`) run to end of line, block comments to `*/`, and single/double-quoted
string literals honour backslash escapes and doubled quotes.  Returns only
the text outside comments and string literals, each elided region replaced
by one space.  The fuel is instantiated with the text length, which every
step strictly decreases. -/
def specOutsideText : Nat → List Char → List Char
  | 0, _ => []
  | _ + 1, [] => []
  | f + 1, '-' :: '-' :: t => ' ' :: specOutsideText f (t.dropWhile (fun c => c ≠ '\n'))
  | f + 1, '#' :: t => ' ' :: specOutsideText f (t.dropWhile (fun c => c ≠ '\n'))
  | f + 1, '/' :: '*' :: t => ' ' :: specOutsideText f (specSkipBlock t)
  | f + 1, '\'' :: t => ' ' :: specOutsideText f (specSkipQuoted '\'' t)
  | f + 1, '"' :: t => ' ' :: specOutsideText f (specSkipQuoted '"' t)
  | f + 1, c :: t => c :: specOutsideText f t

/-- Search the text for `word` as a whole word, case-insensitively. -/
def searchWord (w : List Char) : Option Char → List Char → Bool
  | _, [] => false
  | prev, c :: t => (boundaryOk prev && wordHere w (c :: t)) || searchWord w (some c) t

/-- Modelled from the spec: the denylisted keyword `w` occurs (as a whole
word, case-insensitively) outside every comment and quoted string literal
of `sql`. -/
def specKeywordOutsideLiterals (w : List Char) (sql : List Char) : Bool :=
  searchWord w none (specOutsideText sql.length sql)

/-- Modelled from the spec (claim C10): the text begins, after optional
whitespace and opening parentheses, with the keyword `SELECT` or `WITH`
(case-insensitive, as a whole word). -/
def specBeginsSelectOrWith (s : List Char) : Bool :=
  selectOrWithHere (s.dropWhile (fun c => isWs c || isOpenParen c))

/-! ## `_check_schema_columns`

The AST traversal of the source (`root.find_all(exp.Table)`,
`root.find_all(exp.CTE)`, `root.find_all(exp.Subquery)`,
`root.find_all(exp.Column)` and the ancestor walk `clause_of`) is
abstracted as its results: the alias map built by
`_collect_real_table_aliases` (an insertion-ordered association list
`alias-or-bare-table-name → real table name`, all lower-cased, the bare
name always mapping to itself), the derived-alias set built by
`_collect_derived_aliases`, and the list of column-reference nodes, each
carrying its name, its optional table prefix (`""` when unqualified) and
its clause context. -/

/-- A schema snapshot: `{table -> {columns}}` as fetched from
`information_schema` (original case). -/
abbrev Schema := List (String × List String)

/-- Python `str.lower()` on identifiers, character by character (kept as a
plain list map so that concrete instances evaluate). -/
def strLower (s : String) : String := String.mk (s.data.map Char.toLower)

/-- A column-reference node as consumed by `_check_schema_columns`:
`col.name`, `col.table` (`""` when the reference has no prefix) and the
clause context computed by `clause_of`. -/
structure ColRef where
  name : String
  table : String
  ctx : String
deriving DecidableEq, Repr

/-- One schema finding produced by the column loop of
`_check_schema_columns`. -/
inductive SchemaFinding where
  | missingColumn (table column ctx : String)
  | ambiguousColumn (column : String) (candidates : List String) (ctx : String)
deriving DecidableEq, Repr

/-- Embeds `schema_tables.get(real, set())`: case-sensitive lookup of a table's
column set in the snapshot. -/
def schemaGet (schema : Schema) (t : String) : List String :=
  match schema.find? (fun p => p.1 = t) with
  | some p => p.2
  | none => []

/-- Embeds `all_real_tables = {t.lower() for t in schema_tables.keys()}`. -/
def allRealTables (schema : Schema) : List String :=
  schema.map (fun p => strLower p.1)

/-- Embeds `col_name in {c.lower() for c in schema_tables.get(real, set())}`. -/
def colInTable (schema : Schema) (real colName : String) : Bool :=
  (schemaGet schema real).any (fun c => strLower c = colName)

/-- Embeds `real_aliases.get(alias_lower)`: dictionary lookup in the alias map. -/
def lookupAlias (realAliases : List (String × String)) (a : String) : Option String :=
  match realAliases.find? (fun p => p.1 = a) with
  | some p => some p.2
  | none => none

/-- The candidate list built for an unprefixed column: one qualified
candidate `real.col` per alias-map entry whose real table is in the
snapshot and contains the column (iterating `real_aliases.items()` in
insertion order). -/
def unprefixedCandidates (realAliases : List (String × String)) (schema : Schema)
    (colName : String) : List String :=
  realAliases.filterMap (fun p =>
    if (allRealTables schema).contains p.2 && colInTable schema p.2 colName then
      some (p.2 ++ "." ++ colName)
    else none)

/-- The body of the column loop of `_check_schema_columns` for one column
node: at most one finding per reference. -/
def checkColumn (realAliases : List (String × String)) (derivedAliases : List String)
    (schema : Schema) (col : ColRef) : Option SchemaFinding :=
  let colName := strLower col.name
  if colName = "" then none
  else if col.table ≠ "" then
    let aliasLower := strLower col.table
    if derivedAliases.contains aliasLower then none
    else
      match lookupAlias realAliases aliasLower with
      | none => none
      | some real =>
        if !((allRealTables schema).contains real) then none
        else if !(colInTable schema real colName) then
          some (.missingColumn real colName col.ctx)
        else none
  else
    let candidates := unprefixedCandidates realAliases schema colName
    if candidates.length = 0 then some (.missingColumn "*" colName col.ctx)
    else if candidates.length > 1 then some (.ambiguousColumn colName candidates col.ctx)
    else none

/-- The full column loop: the findings of all column references in AST
traversal order. -/
def checkSchemaColumns (realAliases : List (String × String))
    (derivedAliases : List String) (schema : Schema) (cols : List ColRef) :
    List SchemaFinding :=
  cols.filterMap (checkColumn realAliases derivedAliases schema)

/-- Modelled from the spec (claim C1): "the set of real (non-derived)
tables visible in the statement whose column set contains this name" —
the distinct real tables bound by the alias map, restricted to those
present in the snapshot whose column set contains the name. -/
def specMatchingTables (realAliases : List (String × String)) (schema : Schema)
    (colName : String) : List String :=
  ((realAliases.map Prod.snd).dedup).filter (fun real =>
    (allRealTables schema).contains real && colInTable schema real colName)

/-! ## Status aggregation of `static_check_sql` -/

/-- The `schema_match` stage status (`static_check_sql`, step 4): `fail`
when any table or column is missing, else `warn` when any column is
ambiguous, else `pass`. -/
def schemaMatchStatus (missingTables : List String)
    (missingColumns ambiguousColumns : List SchemaFinding) : String :=
  if missingTables ≠ [] ∨ missingColumns ≠ [] then "fail"
  else if ambiguousColumns ≠ [] then "warn"
  else "pass"

/-- The overall static status (`static_check_sql`, step 5): `fail` exactly
when one of the three per-stage statuses is `fail`. -/
def overallStaticStatus (multiStatement readonlyStatus schemaMatch : String) : String :=
  if multiStatement = "fail" ∨ readonlyStatus = "fail" ∨ schemaMatch = "fail" then "fail"
  else "pass"

/-! ## `_preview_rows` and the outcome logic of `dynamic_check_sql` -/

/-- Embeds `_preview_rows` after the pool has been fetched (the `LIMIT pool_limit`
query): an empty pool yields `[]`; a pool no larger than the sample limit
is returned whole; otherwise the rows at the indices drawn by
`random.sample(range(len(pool)), sample_limit)` are returned.  The drawn
index list is an explicit argument. -/
def previewRows {α : Type} (pool : List α) (idxs : List Nat) (sampleLimit : Nat) :
    List α :=
  if pool.isEmpty then []
  else if pool.length ≤ sampleLimit then pool
  else idxs.filterMap pool.get?

/-- The outcome record of `dynamic_check_sql`. -/
structure DynOutcome (α : Type) where
  ok : Bool
  status : String
  rowCount : Nat
  sampleRows : List α
  message : String
deriving DecidableEq, Repr

/-- The note attached when the COUNT probe failed
(`f"COUNT 统计失败：{count_err}; 已返回样本行用于参考。"`). -/
def countFailNote (countErr : String) : String :=
  "COUNT 统计失败：" ++ countErr ++ "; 已返回样本行用于参考。"

/-- The caller-facing hint returned for an empty result. -/
def emptyResultHint : String :=
  "查询结果为空。请基于 get_mysql_schema 的表结构与样例数据，检查筛选条件（时间区间、品类、人群范围、聚合条件）是否合理。"

/-- The post-execution logic of `dynamic_check_sql` when the preview fetch
succeeded: the COUNT probe result (`.error` when `_count_rows` raised),
the fetched preview pool and the drawn sample indices determine the
outcome.  When the count failed, `row_count = len(samples)` and the
approximation note is attached; a zero row count yields the successful
empty outcome with the remediation hint. -/
def dynamicAfterExec {α : Type} (countRes : Except String Nat) (pool : List α)
    (idxs : List Nat) (sampleLimit : Nat) : DynOutcome α :=
  let samples := previewRows pool idxs sampleLimit
  let rowCount := match countRes with
    | .error _ => samples.length
    | .ok t => t
  let note := match countRes with
    | .error ce => countFailNote ce
    | .ok _ => "执行成功"
  if rowCount = 0 then
    { ok := true, status := "success", rowCount := 0, sampleRows := [],
      message := emptyResultHint }
  else
    { ok := true, status := "success", rowCount := rowCount, sampleRows := samples,
      message := note }

/-! ## `save_to_csv` -/

/-- One event of the streaming fetch loop of `save_to_csv`: either a batch
returned by `cursor.fetchmany(fetch_size)` or an exception raised
mid-stream (by `cursor.execute`, a fetch, or a write). -/
inductive StreamEvent (α : Type) where
  | batch (rows : List α)
  | failure (msg : String)
deriving DecidableEq, Repr

/-- The outcome record of `save_to_csv`. -/
structure SaveOutcome where
  ok : Bool
  status : String
  rowsWritten : Nat
  errorMsg : Option String
deriving DecidableEq, Repr

/-- The write loop of `save_to_csv`: the file content (header row followed
by data rows written so far) grows batch by batch; a failure event deletes
the file (`os.remove`) and returns the structured runtime error.  The
first component of the result is the state of the output file after the
call: `none` when no file remains on disk. -/
def saveWriteLoop {α : Type} (events : List (StreamEvent α))
    (file : List (List String)) (rowsToCsv : α → List String) (written : Nat) :
    Option (List (List String)) × SaveOutcome :=
  match events with
  | [] =>
    (some file,
     if written = 0 then
       { ok := true, status := "empty", rowsWritten := 0, errorMsg := none }
     else
       { ok := true, status := "success", rowsWritten := written, errorMsg := none })
  | .batch [] :: _ =>
    -- `if not batch: break`: an empty batch ends the loop successfully
    (some file,
     if written = 0 then
       { ok := true, status := "empty", rowsWritten := 0, errorMsg := none }
     else
       { ok := true, status := "success", rowsWritten := written, errorMsg := none })
  | .batch rows :: rest =>
    saveWriteLoop rest (file ++ rows.map rowsToCsv) rowsToCsv (written + rows.length)
  | .failure msg :: _ =>
    (none,
     { ok := false, status := "runtime_error", rowsWritten := 0, errorMsg := some msg })

/-- The first exception raised by the streaming loop, if the loop reaches
one (an empty batch ends the loop before any later event is seen). -/
def firstStreamFailure {α : Type} : List (StreamEvent α) → Option String
  | [] => none
  | .batch [] :: _ => none
  | .batch _ :: rest => firstStreamFailure rest
  | .failure msg :: _ => some msg

/-- Embeds `save_to_csv`: after the single-statement and read-only gates pass, the
output file is created, the header row is written (when the cursor
description is non-empty), and the stream is consumed batch by batch;
any failure mid-stream removes the partial file and returns a structured
runtime error.  The first component of the result is the state of the
output file after the call (`none`: no file was created or it was
removed). -/
def save_to_csv {α : Type} (sql : List Char) (colnames : List String)
    (events : List (StreamEvent α)) (rowsToCsv : α → List String) :
    Option (List (List String)) × SaveOutcome :=
  if !(is_single_statement sql) then
    (none, { ok := false, status := "runtime_error", rowsWritten := 0,
             errorMsg := some "仅允许单条 SQL 语句（检测到多语句）" })
  else if !(is_readonly_select sql) then
    (none, { ok := false, status := "runtime_error", rowsWritten := 0,
             errorMsg := some "仅允许只读查询（SELECT/WITH/UNION），或检测到危险关键字" })
  else
    saveWriteLoop events (if colnames = [] then [] else [colnames]) rowsToCsv 0

/-! ## Helper lemmas -/

theorem dropWhile_append_of_all {α : Type} (f : α → Bool) (a r : List α)
    (h : ∀ c ∈ a, f c = true) : (a ++ r).dropWhile f = r.dropWhile f := by
  induction a with
  | nil => rfl
  | cons x xs ih =>
    rw [List.cons_append, List.dropWhile_cons_of_pos (h x (List.mem_cons_self _ _))]
    exact ih fun c hc => h c (List.mem_cons_of_mem _ hc)

/-- Dropping a weaker prefix first does not change the result of
`dropWhile` with a stronger predicate. -/
theorem dropWhile_absorb {α : Type} (p g : α → Bool)
    (h : ∀ c, p c = true → g c = true) (s : List α) :
    s.dropWhile g = (s.dropWhile p).dropWhile g := by
  conv_lhs => rw [← List.takeWhile_append_dropWhile (p := p) (l := s)]
  exact dropWhile_append_of_all g _ _ fun c hc => h c (List.mem_takeWhile_imp hc)

theorem lowerPref_cons_inv {k : Char} {ks s rest : List Char}
    (h : lowerPref (k :: ks) s = some rest) :
    ∃ c cs, s = c :: cs ∧ c.toLower = k := by
  cases s with
  | nil => simp [lowerPref] at h
  | cons c cs =>
    by_cases hk : c.toLower = k
    · exact ⟨c, cs, rfl, hk⟩
    · simp [lowerPref, hk] at h

theorem wordHere_inv {w : List Char} {s : List Char} (hw : w ≠ [])
    (h : wordHere w s = true) :
    ∃ c cs k ks, s = c :: cs ∧ w = k :: ks ∧ c.toLower = k := by
  cases w with
  | nil => exact absurd rfl hw
  | cons k ks =>
    unfold wordHere at h
    cases hl : lowerPref (k :: ks) s with
    | none => rw [hl] at h; cases h
    | some rest =>
      obtain ⟨c, cs, hs, hc⟩ := lowerPref_cons_inv hl
      exact ⟨c, cs, k, ks, hs, rfl, hc⟩

theorem selectOrWithHere_head {s : List Char} (h : selectOrWithHere s = true) :
    ∃ c cs, s = c :: cs ∧ (c.toLower = 's' ∨ c.toLower = 'w') := by
  unfold selectOrWithHere at h
  rcases Bool.or_eq_true_iff.mp h with h' | h'
  · obtain ⟨c, cs, k, ks, hs, hw, hc⟩ := wordHere_inv (by decide) h'
    refine ⟨c, cs, hs, Or.inl ?_⟩
    have : k = 's' := by
      have : ('s' : Char) :: "elect".toList = k :: ks := hw
      exact (List.cons.injEq _ _ _ _ ▸ this).1.symm
    rwa [this] at hc
  · obtain ⟨c, cs, k, ks, hs, hw, hc⟩ := wordHere_inv (by decide) h'
    refine ⟨c, cs, hs, Or.inr ?_⟩
    have : k = 'w' := by
      have : ('w' : Char) :: "ith".toList = k :: ks := hw
      exact (List.cons.injEq _ _ _ _ ▸ this).1.symm
    rwa [this] at hc

theorem head_not_wsOrParen {c : Char} (h : c.toLower = 's' ∨ c.toLower = 'w') :
    (isWs c || isOpenParen c) = false := by
  cases hb : (isWs c || isOpenParen c) with
  | false => rfl
  | true =>
    exfalso
    rcases Bool.or_eq_true_iff.mp hb with hw | hp
    · have hcases : ((c = ' ' ∨ c = '\t') ∨ c = '\x0d') ∨ c = '\n' := by
        simpa [isWs, Char.isWhitespace, Bool.or_eq_true, decide_eq_true_eq] using hw
      rcases hcases with ((rfl | rfl) | rfl) | rfl <;>
        rcases h with h | h <;> exact absurd h (by decide)
    · have hc : c = '(' := by simpa [isOpenParen] using hp
      subst hc
      rcases h with h | h <;> exact absurd h (by decide)

/-- A successful match of the strict head regex of `_is_readonly_select`
implies the spec-side "begins, after optional whitespace and opening
parentheses, with SELECT or WITH". -/
theorem readonlyHead_imp_specBegins {s : List Char} (h : readonlyHead s = true) :
    specBeginsSelectOrWith s = true := by
  unfold readonlyHead at h
  unfold specBeginsSelectOrWith
  have e1 : s.dropWhile (fun c => isWs c || isOpenParen c)
      = (((s.dropWhile isWs).dropWhile isOpenParen).dropWhile isWs).dropWhile
          (fun c => isWs c || isOpenParen c) := by
    rw [dropWhile_absorb isWs _ (fun c hc => by simp [hc]),
        dropWhile_absorb isOpenParen _ (fun c hc => by simp [hc]) (s.dropWhile isWs),
        dropWhile_absorb isWs _ (fun c hc => by simp [hc])
          ((s.dropWhile isWs).dropWhile isOpenParen)]
  obtain ⟨c, cs, hr, hc⟩ := selectOrWithHere_head h
  rw [e1, hr, List.dropWhile_cons_of_neg (by simp [head_not_wsOrParen hc]), ← hr]
  exact h

theorem filterMap_get?_length {α : Type} (l : List α) (idxs : List Nat)
    (h : ∀ i ∈ idxs, i < l.length) :
    (idxs.filterMap l.get?).length = idxs.length := by
  induction idxs with
  | nil => rfl
  | cons i t ih =>
    have hi : i < l.length := h i (List.mem_cons_self _ _)
    rw [List.filterMap_cons, List.get?_eq_get hi]
    simpa using ih fun j hj => h j (List.mem_cons_of_mem _ hj)

theorem previewRows_length {α : Type} (pool : List α) (idxs : List Nat) (n : Nat)
    (hlen : idxs.length = n) (hvalid : ∀ i ∈ idxs, i < pool.length) :
    (previewRows pool idxs n).length = min pool.length n := by
  unfold previewRows
  by_cases hp : pool.isEmpty
  · have : pool = [] := List.isEmpty_iff.mp hp
    subst this
    simp [hp]
  · rw [if_neg hp]
    by_cases hle : pool.length ≤ n
    · rw [if_pos hle]
      exact (Nat.min_eq_left hle).symm
    · rw [if_neg hle, filterMap_get?_length pool idxs hvalid, hlen]
      exact (Nat.min_eq_right (Nat.le_of_not_le hle)).symm

theorem previewRows_mem {α : Type} {pool : List α} {idxs : List Nat} {n : Nat}
    {r : α} (h : r ∈ previewRows pool idxs n) : r ∈ pool := by
  unfold previewRows at h
  by_cases hp : pool.isEmpty
  · rw [if_pos hp] at h; cases h
  · rw [if_neg hp] at h
    by_cases hle : pool.length ≤ n
    · rwa [if_pos hle] at h
    · rw [if_neg hle] at h
      obtain ⟨i, _, hget⟩ := List.mem_filterMap.mp h
      exact List.get?_mem hget

theorem previewRows_of_le {α : Type} (pool : List α) (idxs : List Nat) (n : Nat)
    (h : pool.length ≤ n) : previewRows pool idxs n = pool := by
  unfold previewRows
  by_cases hp : pool.isEmpty
  · rw [if_pos hp]
    exact (List.isEmpty_iff.mp hp).symm
  · rw [if_neg hp, if_pos h]

theorem saveWriteLoop_failure {α : Type} (events : List (StreamEvent α))
    (msg : String) (hf : firstStreamFailure events = some msg)
    (file : List (List String)) (rowsToCsv : α → List String) (written : Nat) :
    saveWriteLoop events file rowsToCsv written =
      (none, { ok := false, status := "runtime_error", rowsWritten := 0,
               errorMsg := some msg }) := by
  induction events generalizing file written with
  | nil => cases hf
  | cons e rest ih =>
    cases e with
    | batch rows =>
      cases rows with
      | nil => cases hf
      | cons r rs =>
        rw [show firstStreamFailure (StreamEvent.batch (r :: rs) :: rest)
              = firstStreamFailure rest from rfl] at hf
        exact ih hf _ _
    | failure m =>
      have : m = msg := by
        have : some m = some msg := hf
        exact Option.some.injEq _ _ ▸ this
      subst this
      rfl

/-! ## Claim theorems -/

/-- C1, counterexample: for the schema `{t: {id}}` and the statement
`SELECT id FROM t AS a` (alias map `{a → t, t → t}`), exactly one real
visible table contains `id`, yet the resolver reports `ambiguous_column`
with the same qualified candidate listed twice — the claim's "exactly one
matching table yields no finding" (in particular for a single aliased
table) is false on the code. -/
theorem c1_counterexample :
    specMatchingTables [("a", "t"), ("t", "t")] [("t", ["id"])] "id" = ["t"] ∧
    checkColumn [("a", "t"), ("t", "t")] [] [("t", ["id"])] ⟨"id", "", "select"⟩
      = some (.ambiguousColumn "id" ["t.id", "t.id"] "select") := by
  constructor <;> rfl

/-- C1 (amended): an unprefixed column reference is resolved against the
alias-map *entries* (one per alias plus one per bare table name), not
against the set of distinct tables: zero matching entries yields a
`missing_column` finding with table `"*"`, exactly one matching entry
yields no finding, and two or more matching entries yield an
`ambiguous_column` finding listing one qualified candidate per entry —
so a query over a single aliased table whose column set contains the name
yields an `ambiguous_column` finding with the same candidate twice. -/
theorem c1_unprefixed_resolution_by_alias_entries
    (realAliases : List (String × String)) (derivedAliases : List String)
    (schema : Schema) (name ctx : String) (h : strLower name ≠ "") :
    (unprefixedCandidates realAliases schema (strLower name) = [] →
      checkColumn realAliases derivedAliases schema ⟨name, "", ctx⟩
        = some (.missingColumn "*" (strLower name) ctx)) ∧
    ((unprefixedCandidates realAliases schema (strLower name)).length = 1 →
      checkColumn realAliases derivedAliases schema ⟨name, "", ctx⟩ = none) ∧
    (1 < (unprefixedCandidates realAliases schema (strLower name)).length →
      checkColumn realAliases derivedAliases schema ⟨name, "", ctx⟩
        = some (.ambiguousColumn (strLower name)
            (unprefixedCandidates realAliases schema (strLower name)) ctx)) := by
  refine ⟨fun hc => ?_, fun hc => ?_, fun hc => ?_⟩
  · simp [checkColumn, h, hc]
  · simp [checkColumn, h, hc]
  · have h0 : (unprefixedCandidates realAliases schema (strLower name)).length ≠ 0 := by
      omega
    simp [checkColumn, h, h0, hc]

/-- Witness for C1 (amended): the single-aliased-table instance has two
matching entries, so the amended trichotomy yields the duplicated
ambiguous finding there. -/
theorem c1_witness :
    checkColumn [("a", "t"), ("t", "t")] [] [("t", ["id"])] ⟨"id", "", "select"⟩
      = some (.ambiguousColumn "id" ["t.id", "t.id"] "select") :=
  (c1_unprefixed_resolution_by_alias_entries [("a", "t"), ("t", "t")] []
    [("t", ["id"])] "id" "select" (by decide)).2.2 (by decide)

/-- C2 (code bug): on `SELECT '#', DROP FROM t` the denylisted keyword
`DROP` occurs outside every comment and quoted string literal, yet the
lexical safety scan reports no forbidden token — the scrubber removes `#`
line comments before blanking string literals, so the `#` inside the
string literal swallows the rest of the line, `DROP` included. -/
theorem c2_forbidden_scan_misses_keyword :
    specKeywordOutsideLiterals "drop".toList "SELECT '#', DROP FROM t".toList = true ∧
    has_forbidden_token "SELECT '#', DROP FROM t".toList = false := by
  constructor <;> rfl

/-- C3: a column reference whose table prefix is a derived-table alias
(CTE or subquery alias) is skipped by the schema check and never produces
any finding, whatever the schema snapshot contains. -/
theorem c3_derived_prefix_trusted (realAliases : List (String × String))
    (derivedAliases : List String) (schema : Schema) (col : ColRef)
    (hpre : col.table ≠ "")
    (hder : derivedAliases.contains (strLower col.table) = true) :
    checkColumn realAliases derivedAliases schema col = none := by
  have hmem : strLower col.table ∈ derivedAliases := by simpa using hder
  unfold checkColumn
  by_cases hn : strLower col.name = ""
  · simp [hn]
  · simp [hn, hpre, hmem]

/-- Witness for C3: `derived.x` over schema `{t: {id}}` — `x` is absent
from every real table, yet no finding is produced. -/
theorem c3_witness :
    checkColumn [("t", "t")] ["derived"] [("t", ["id"])] ⟨"x", "derived", "select"⟩
      = none :=
  c3_derived_prefix_trusted _ _ _ _ (by decide) (by decide)

/-- C4: the `schema_match` stage status is `fail` exactly when a table or
column is missing, `warn` when only ambiguous columns were found, `pass`
otherwise; and with the other stages passing, ambiguous columns alone
leave the overall static status at `pass`. -/
theorem c4_schema_match_severity (mt : List String) (mc ac : List SchemaFinding) :
    (schemaMatchStatus mt mc ac = "fail" ↔ (mt ≠ [] ∨ mc ≠ [])) ∧
    (mt = [] → mc = [] → ac ≠ [] → schemaMatchStatus mt mc ac = "warn") ∧
    (mt = [] → mc = [] → ac = [] → schemaMatchStatus mt mc ac = "pass") ∧
    (mt = [] → mc = [] →
      overallStaticStatus "pass" "pass" (schemaMatchStatus mt mc ac) = "pass") := by
  by_cases hmt : mt = [] <;> by_cases hmc : mc = [] <;> by_cases hac : ac = [] <;>
    simp [schemaMatchStatus, overallStaticStatus, hmt, hmc, hac]

/-- Witness for C4: one ambiguous column and nothing missing gives
`schema_match = warn` and an overall `pass`. -/
theorem c4_witness :
    schemaMatchStatus [] [] [.ambiguousColumn "id" ["t1.id", "t2.id"] "select"]
      = "warn" ∧
    overallStaticStatus "pass" "pass"
      (schemaMatchStatus [] [] [.ambiguousColumn "id" ["t1.id", "t2.id"] "select"])
      = "pass" :=
  ⟨(c4_schema_match_severity [] [] _).2.1 rfl rfl (by simp),
   (c4_schema_match_severity [] [] _).2.2.2 rfl rfl⟩

/-- C5: given the contract of `random.sample` (the drawn index list has
the requested size, is duplicate-free and stays inside the pool), the
sampling step returns the whole pool when it has at most `n` rows, always
returns `min (pool size) n` rows, and only rows of the pool. -/
theorem c5_preview_sampling {α : Type} (pool : List α) (idxs : List Nat) (n : Nat)
    (hlen : idxs.length = n) (hnodup : idxs.Nodup)
    (hvalid : ∀ i ∈ idxs, i < pool.length) :
    (pool.length ≤ n → previewRows pool idxs n = pool) ∧
    (previewRows pool idxs n).length = min pool.length n ∧
    (∀ r ∈ previewRows pool idxs n, r ∈ pool) :=
  ⟨fun h => previewRows_of_le pool idxs n h,
   previewRows_length pool idxs n hlen hvalid,
   fun _ hr => previewRows_mem hr⟩

/-- Witness for C5 at a pool of three rows sampled down to two. -/
theorem c5_witness :
    (([10, 20, 30] : List Nat).length ≤ 2 →
      previewRows [10, 20, 30] [2, 0] 2 = [10, 20, 30]) ∧
    (previewRows ([10, 20, 30] : List Nat) [2, 0] 2).length
      = min ([10, 20, 30] : List Nat).length 2 ∧
    (∀ r ∈ previewRows ([10, 20, 30] : List Nat) [2, 0] 2,
      r ∈ ([10, 20, 30] : List Nat)) :=
  c5_preview_sampling [10, 20, 30] [2, 0] 2 rfl (by decide) (by decide)

/-- C6, counterexample: with a failed COUNT probe, a fetched pool of three
rows and a sample limit of two, the outcome is successful but its
`row_count` is 2 — the number of sampled rows — not the size 3 of the
fetched preview pool, contradicting the claim as stated. -/
theorem c6_counterexample :
    (dynamicAfterExec (α := Nat) (.error "boom") [10, 20, 30] [0, 1] 2).ok = true ∧
    (dynamicAfterExec (α := Nat) (.error "boom") [10, 20, 30] [0, 1] 2).rowCount = 2 ∧
    ([10, 20, 30] : List Nat).length = 3 ∧
    (dynamicAfterExec (α := Nat) (.error "boom") [10, 20, 30] [0, 1] 2).rowCount
      ≠ ([10, 20, 30] : List Nat).length := by
  refine ⟨rfl, rfl, rfl, by decide⟩

/-- C6 (amended): when the COUNT probe fails but the preview fetch
succeeds with a non-empty pool (and the sample limit is positive), the
outcome is still successful, its `row_count` is the number of returned
sample rows — `min (pool size) (sample limit)`, not the pool size — and
its message is the note that the COUNT failed and the sample rows are
returned for reference. -/
theorem c6_count_failure_rowcount {α : Type} (ce : String) (pool : List α)
    (idxs : List Nat) (n : Nat) (hpool : pool ≠ []) (hn : 0 < n)
    (hlen : idxs.length = n) (hvalid : ∀ i ∈ idxs, i < pool.length) :
    (dynamicAfterExec (.error ce) pool idxs n).ok = true ∧
    (dynamicAfterExec (.error ce) pool idxs n).status = "success" ∧
    (dynamicAfterExec (.error ce) pool idxs n).rowCount = min pool.length n ∧
    (dynamicAfterExec (.error ce) pool idxs n).sampleRows = previewRows pool idxs n ∧
    (dynamicAfterExec (.error ce) pool idxs n).message = countFailNote ce := by
  have hL : (previewRows pool idxs n).length = min pool.length n :=
    previewRows_length pool idxs n hlen hvalid
  have hpos : 0 < pool.length := List.length_pos.mpr hpool
  have hne : ¬((previewRows pool idxs n).length = 0) := by
    rw [hL]
    have := Nat.lt_min.mpr ⟨hpos, hn⟩
    omega
  refine ⟨?_, ?_, ?_, ?_, ?_⟩ <;>
    simp only [dynamicAfterExec, if_neg hne] <;> first | rfl | exact hL

/-- Witness for C6 (amended) at a pool of three rows and sample limit
two. -/
theorem c6_amended_witness :
    (dynamicAfterExec (α := Nat) (.error "boom") [10, 20, 30] [0, 1] 2).ok = true ∧
    (dynamicAfterExec (α := Nat) (.error "boom") [10, 20, 30] [0, 1] 2).status
      = "success" ∧
    (dynamicAfterExec (α := Nat) (.error "boom") [10, 20, 30] [0, 1] 2).rowCount
      = min ([10, 20, 30] : List Nat).length 2 ∧
    (dynamicAfterExec (α := Nat) (.error "boom") [10, 20, 30] [0, 1] 2).sampleRows
      = previewRows [10, 20, 30] [0, 1] 2 ∧
    (dynamicAfterExec (α := Nat) (.error "boom") [10, 20, 30] [0, 1] 2).message
      = countFailNote "boom" :=
  c6_count_failure_rowcount "boom" [10, 20, 30] [0, 1] 2 (by decide) (by decide)
    rfl (by decide)

/-- C7: a successful execution whose COUNT probe returns zero rows yields
a successful outcome — `ok = true`, `status = "success"`, `row_count = 0`,
empty `sample_rows` and the caller-facing hint to re-examine filter
conditions — never a runtime error. -/
theorem c7_zero_rows_success {α : Type} (pool : List α) (idxs : List Nat) (n : Nat) :
    dynamicAfterExec (.ok 0) pool idxs n =
      { ok := true, status := "success", rowCount := 0, sampleRows := [],
        message := emptyResultHint } := rfl

/-- C8: when the export stream fails after the output file has been
created (execution, fetch or write failure mid-stream), the partial file
is removed and a structured runtime-error outcome is returned; no partial
artifact remains. -/
theorem c8_export_failure_removes_file {α : Type} (sql : List Char)
    (colnames : List String) (events : List (StreamEvent α))
    (rowsToCsv : α → List String) (msg : String)
    (h1 : is_single_statement sql = true) (h2 : is_readonly_select sql = true)
    (hf : firstStreamFailure events = some msg) :
    save_to_csv sql colnames events rowsToCsv =
      (none, { ok := false, status := "runtime_error", rowsWritten := 0,
               errorMsg := some msg }) := by
  unfold save_to_csv
  rw [h1, h2]
  simpa using saveWriteLoop_failure events msg hf
    (if colnames = [] then [] else [colnames]) rowsToCsv 0

/-- Witness for C8: a failure after one written batch removes the file
and returns the runtime error. -/
theorem c8_witness :
    save_to_csv (α := List String) "SELECT 1".toList ["a"]
      [.batch [["1"]], .failure "disk full"] id =
      (none, { ok := false, status := "runtime_error", rowsWritten := 0,
               errorMsg := some "disk full" }) :=
  c8_export_failure_removes_file _ _ _ _ "disk full" (by decide) (by decide) rfl

/-- C9: a column reference whose table prefix is neither a derived alias
nor a key of the alias map is silently skipped — the resolver produces no
finding of any kind for it. -/
theorem c9_unresolvable_prefix_skipped (realAliases : List (String × String))
    (derivedAliases : List String) (schema : Schema) (col : ColRef)
    (hpre : col.table ≠ "")
    (hder : derivedAliases.contains (strLower col.table) = false)
    (hma : lookupAlias realAliases (strLower col.table) = none) :
    checkColumn realAliases derivedAliases schema col = none := by
  unfold checkColumn
  by_cases hn : strLower col.name = ""
  · simp [hn]
  · simp [hn, hpre, hder, hma]

/-- Witness for C9: prefix `zz` is neither derived nor in the alias map;
the reference `zz.x` yields no finding although `x` is missing from the
schema. -/
theorem c9_witness :
    checkColumn [("t", "t")] [] [("t", ["id"])] ⟨"x", "zz", "select"⟩ = none :=
  c9_unresolvable_prefix_skipped _ _ _ _ (by decide) (by decide) (by decide)

/-- C10: whenever the text does not begin — after optional whitespace and
opening parentheses — with the keyword `SELECT` or `WITH`
(case-insensitive), the read-only gate returns false and both
`dynamic_check_sql` and `save_to_csv` reject the request with a runtime
error before touching the store. -/
theorem c10_gate_rejects_non_select_head (sql : List Char)
    (h : specBeginsSelectOrWith sql = false) :
    is_readonly_select sql = false ∧
    dynamic_check_gate sql ≠ none ∧
    save_to_csv_gate sql ≠ none := by
  have hro : is_readonly_select sql = false := by
    cases hh : readonlyHead sql with
    | false => simp [is_readonly_select, hh]
    | true => exact absurd (readonlyHead_imp_specBegins hh) (by simp [h])
  refine ⟨hro, ?_, ?_⟩
  · unfold dynamic_check_gate
    cases hs : is_single_statement sql with
    | false => simp [hs]
    | true => simp [hs, hro]
  · unfold save_to_csv_gate
    cases hs : is_single_statement sql with
    | false => simp [hs]
    | true => simp [hs, hro]

/-- Witness for C10: an otherwise read-only statement that starts with a
line comment is rejected by both execution tools. -/
theorem c10_witness :
    specBeginsSelectOrWith ("-- note\nSELECT 1 FROM t".toList) = false ∧
    (is_readonly_select ("-- note\nSELECT 1 FROM t".toList) = false ∧
     dynamic_check_gate ("-- note\nSELECT 1 FROM t".toList) ≠ none ∧
     save_to_csv_gate ("-- note\nSELECT 1 FROM t".toList) ≠ none) :=
  ⟨by decide, c10_gate_rejects_non_select_head _ (by decide)⟩

end SQLCritic
